import Mathlib

/-!
Shallow embedding of the qANSI virtual-terminal library
(src/qANSI.h and src/src/qANSI_VT.h).

The state of one `qANSI_VT` instance (including the `qANSI` base-class
fields that the virtual-terminal code paths read or write) is modelled as
the structure `VT`.  All `uint8_t` fields are modelled as `Nat`; every
arithmetic step of the C++ that can wrap an 8-bit value carries an
explicit `% 256`.  The `uint16_t` quantities (`bufferSize`, buffer
indices, `dirtyCount`) never exceed `255 * 255 + 254 < 2 ^ 16`, so they
are plain `Nat`.

Bytes written to the output `Stream` are modelled as a trace of `Ev`
events, one event per ANSI command or glyph byte the C++ sends; an empty
trace means zero bytes of I/O.

The two floating-point threshold tests in `display()`
(`dirtyCount > _width * _height * 0.7` and
`dirtyRows <= _height * 0.3`) are modelled as the exact rational
comparisons `10 * dirtyCount > 7 * (width * height)` and
`10 * dirtyRows ≤ 3 * height`.  At every concrete size used below the
double-precision evaluation of the C++ agrees with the exact comparison,
and no claim hinges on a borderline threshold value.
-/

namespace QAnsi

/-- One cell of the virtual screen buffer (`struct AnsiCell`).
`character` is the stored byte. -/
structure AnsiCell where
  character : Nat
  fgColor : Nat
  bgColor : Nat
  attributes : Nat
  dirty : Bool
deriving Repr, DecidableEq, Inhabited

/-- `qANSI_Colors::FG_DEFAULT`. -/
def FG_DEFAULT : Nat := 39
/-- `qANSI_Colors::BG_DEFAULT`. -/
def BG_DEFAULT : Nat := 49
/-- `qANSI_Attributes::RESET`. -/
def ATTR_RESET : Nat := 0

/-- Default cell used for out-of-range `getD` reads (never reached by
in-range code paths). -/
def dCell : AnsiCell := ⟨32, FG_DEFAULT, BG_DEFAULT, ATTR_RESET, true⟩

/-- One byte-level command or glyph sent to the output stream. -/
inductive Ev where
  | hideCursor : Ev
  | showCursor : Ev
  | clearScreen : Ev
  | moveCursor (col row : Nat) : Ev
  | resetAttr : Ev
  | setAttr (a : Nat) : Ev
  | setFg (c : Nat) : Ev
  | setBg (c : Nat) : Ev
  | glyph (c : Nat) : Ev
deriving Repr, DecidableEq

/-- The state of one `qANSI_VT` instance, together with the `qANSI`
base-class fields its code paths use (`_currentFg`, `_currentBg`,
`_currentAttr`, `_cursorVisible`).  A failed or zero-size allocation is
the degraded state `width = height = 0`, `buffer = []`.
`_terminalFg`, `_terminalBg` and `_terminalAttr` are uninitialized in
the C++ constructor and are never read before `display`, `begin` or
`clear` first assigns them; they start at arbitrary values here
(defaults chosen). -/
structure VT where
  width : Nat
  height : Nat
  posX : Nat
  posY : Nat
  buffer : List AnsiCell
  cursorX : Nat
  cursorY : Nat
  terminalCursorX : Nat
  terminalCursorY : Nat
  terminalFg : Nat
  terminalBg : Nat
  terminalAttr : Nat
  terminalStateKnown : Bool
  scrollEnabled : Bool
  lineWrappingEnabled : Bool
  forceFullRedraw : Bool
  currentFg : Nat
  currentBg : Nat
  currentAttr : Nat
  cursorVisible : Bool
deriving Repr, DecidableEq

/-- Arduino `constrain(amt, low, high)`. -/
def constrainN (amt low high : Nat) : Nat :=
  if amt < low then low else if high < amt then high else amt

/-- The constructor `qANSI_VT(width, height, posX, posY, output)`.
The buffer is allocated and filled blank-and-dirty when both dimensions
are positive; otherwise the instance is degraded to zero area. -/
def mk (w h px py : Nat) : VT :=
  if 0 < w ∧ 0 < h then
    { width := w, height := h, posX := px, posY := py
      buffer := List.replicate (w * h) ⟨32, FG_DEFAULT, BG_DEFAULT, ATTR_RESET, true⟩
      cursorX := 1, cursorY := 1
      terminalCursorX := 0, terminalCursorY := 0
      terminalFg := FG_DEFAULT, terminalBg := BG_DEFAULT, terminalAttr := ATTR_RESET
      terminalStateKnown := false, scrollEnabled := true
      lineWrappingEnabled := true, forceFullRedraw := true
      currentFg := FG_DEFAULT, currentBg := BG_DEFAULT, currentAttr := ATTR_RESET
      cursorVisible := true }
  else
    { width := 0, height := 0, posX := px, posY := py
      buffer := []
      cursorX := 1, cursorY := 1
      terminalCursorX := 0, terminalCursorY := 0
      terminalFg := FG_DEFAULT, terminalBg := BG_DEFAULT, terminalAttr := ATTR_RESET
      terminalStateKnown := false, scrollEnabled := true
      lineWrappingEnabled := true, forceFullRedraw := true
      currentFg := FG_DEFAULT, currentBg := BG_DEFAULT, currentAttr := ATTR_RESET
      cursorVisible := true }

/-- `qANSI_VT::_getIndex`: clamps both 1-based coordinates into bounds
with `constrain` and converts to a 0-based buffer index. -/
def getIndex (vt : VT) (col row : Nat) : Nat :=
  let c := constrainN col 1 vt.width
  let r := constrainN row 1 vt.height
  (r - 1) * vt.width + (c - 1)

/-- The buffer cell at 1-based `(col, row)` (after `_getIndex` clamping). -/
def cellAt (vt : VT) (col row : Nat) : AnsiCell :=
  vt.buffer.getD (getIndex vt col row) dCell

/-- `qANSI_VT::getCharAt`: explicit bounds check, returning a space for a
null buffer or an out-of-range coordinate. -/
def getCharAt (vt : VT) (col row : Nat) : Nat :=
  if vt.buffer = [] ∨ col < 1 ∨ vt.width < col ∨ row < 1 ∨ vt.height < row then 32
  else (cellAt vt col row).character

/-- Blank cell carrying the current drawing style, as built by `clear`
and by the scroll-exposed rows of `scrollUp`. -/
def blankCell (vt : VT) : AnsiCell :=
  ⟨32, vt.currentFg, vt.currentBg, vt.currentAttr, true⟩

/-- `qANSI_VT::scrollUp(lines)`.  The C++ copies rows `1+lines .. height`
to `1 .. height-lines` in ascending destination order; every source row
read lies strictly above all rows already written, so the in-place loop
computes exactly this per-index description of the result.  The rows it
exposes at the bottom are blanked with the current style; every cell it
touches is marked dirty and a full redraw is forced.  It performs no
output (second component always `[]`). -/
def scrollUp (lines : Nat) (vt : VT) : VT × List Ev :=
  if vt.buffer = [] ∨ lines = 0 then (vt, []) else
  let lines := min lines vt.height
  let newBuf := (List.range vt.buffer.length).map (fun i =>
    let y := i / vt.width + 1
    if y ≤ vt.height - lines then
      let src := vt.buffer.getD (i + lines * vt.width) dCell
      ⟨src.character, src.fgColor, src.bgColor, src.attributes, true⟩
    else blankCell vt)
  ({ vt with buffer := newBuf, forceFullRedraw := true }, [])

/-- `qANSI_VT::setCursor(col, row)`: folds column overflow into extra
rows when wrapping is enabled (the `row += additionalRows` assignment is
8-bit), scrolls when scrolling is enabled and the row exceeds the
height, and finally `constrain`s both coordinates.  Emits nothing. -/
def setCursor (col row : Nat) (vt : VT) : VT :=
  if vt.buffer = [] then vt else
  let cr : Nat × Nat :=
    if vt.lineWrappingEnabled ∧ vt.width < col then
      (((col - 1) % vt.width) + 1, (row + (col - 1) / vt.width) % 256)
    else (col, row)
  let col := cr.1
  let row := cr.2
  let vr : VT × Nat :=
    if vt.scrollEnabled ∧ vt.height < row then
      ((scrollUp (row - vt.height) vt).1, vt.height)
    else (vt, row)
  let vt := vr.1
  let row := vr.2
  { vt with cursorX := constrainN col 1 vt.width
            cursorY := constrainN row 1 vt.height }

/-- `qANSI_VT::write(c)` (the core `Print` method).  Returns the updated
state and the `size_t` return value.  Newline, carriage return and
backspace move the cursor; a byte `≥ 32` is stored when the cursor is in
bounds and the cursor then advances (8-bit increments), wrapping or
clamping at the right edge.  Always returns 1 on a live buffer. -/
def write (c : Nat) (vt : VT) : VT × Nat :=
  if vt.buffer = [] ∨ vt.width = 0 ∨ vt.height = 0 then (vt, 0) else
  if c = 10 then
    let vt := { vt with cursorX := 1, cursorY := (vt.cursorY + 1) % 256 }
    let vt :=
      if vt.height < vt.cursorY ∧ vt.scrollEnabled then
        { (scrollUp 1 vt).1 with cursorY := vt.height }
      else vt
    (vt, 1)
  else if c = 13 then
    ({ vt with cursorX := 1 }, 1)
  else if c = 8 then
    (if 1 < vt.cursorX then { vt with cursorX := vt.cursorX - 1 } else vt, 1)
  else if 32 ≤ c then
    let vt :=
      if 1 ≤ vt.cursorX ∧ vt.cursorX ≤ vt.width ∧ 1 ≤ vt.cursorY ∧ vt.cursorY ≤ vt.height then
        { vt with buffer := (vt.buffer.set (getIndex vt vt.cursorX vt.cursorY)
            ⟨c, vt.currentFg, vt.currentBg, vt.currentAttr, true⟩) }
      else vt
    let vt := { vt with cursorX := (vt.cursorX + 1) % 256 }
    let vt :=
      if vt.width < vt.cursorX then
        if vt.lineWrappingEnabled then
          let vt := { vt with cursorX := 1, cursorY := (vt.cursorY + 1) % 256 }
          if vt.height < vt.cursorY ∧ vt.scrollEnabled then
            { (scrollUp 1 vt).1 with cursorY := vt.height }
          else vt
        else { vt with cursorX := vt.width }
      else vt
    (vt, 1)
  else (vt, 1)

/-- Feeding a byte list through `write` one byte at a time (the loop of
`print(const char *)`). -/
def writeList (cs : List Nat) (vt : VT) : VT :=
  cs.foldl (fun vt c => (write c vt).1) vt

/-- `qANSI_VT::setScrolling`. -/
def setScrolling (b : Bool) (vt : VT) : VT := { vt with scrollEnabled := b }

/-- `qANSI_VT::setLineWrapping`. -/
def setLineWrapping (b : Bool) (vt : VT) : VT := { vt with lineWrappingEnabled := b }

/-- `qANSI_VT::forceFullRedraw()`: sets the flag (unconditionally) and
marks every cell dirty when the buffer is live. -/
def forceRedraw (vt : VT) : VT :=
  { vt with forceFullRedraw := true
            buffer := vt.buffer.map (fun c => { c with dirty := true }) }

/-- `qANSI_VT::clear(clearPhysical)`: blanks the whole buffer with the
current style (all dirty), resets the buffer cursor to `(1,1)` and, when
asked, physically blanks the region line by line and resynchronizes the
tracked terminal state. -/
def clear (clearPhysical : Bool) (vt : VT) : VT × List Ev :=
  if vt.buffer = [] then (vt, []) else
  let vt := { vt with buffer := vt.buffer.map (fun _ => blankCell vt) }
  let vt := setCursor 1 1 vt
  if clearPhysical then
    let vt := { vt with currentAttr := ATTR_RESET, currentFg := FG_DEFAULT,
                        currentBg := BG_DEFAULT }
    let rowEvs := (List.range vt.height).flatMap (fun y =>
      Ev.moveCursor vt.posX ((vt.posY + y) % 256) :: List.replicate vt.width (Ev.glyph 32))
    let evs := Ev.resetAttr :: (rowEvs ++ [Ev.moveCursor vt.posX vt.posY])
    ({ vt with terminalCursorX := vt.posX, terminalCursorY := vt.posY
               terminalAttr := ATTR_RESET, terminalFg := FG_DEFAULT
               terminalBg := BG_DEFAULT, terminalStateKnown := true }, evs)
  else (vt, [])

/-- `qANSI_VT::begin(defaultFg, defaultBg)`: no-op on a null buffer;
otherwise runs `qANSI::begin` (whose `resetAttributes` overwrites the
passed defaults with the ANSI defaults and whose `clearScreen` emits a
clear plus a home positioning), invalidates the tracked terminal state,
forces a full redraw and runs `clear(true)`. -/
def begin (vt : VT) : VT × List Ev :=
  if vt.buffer = [] then (vt, []) else
  let vt := { vt with currentFg := FG_DEFAULT, currentBg := BG_DEFAULT
                      currentAttr := ATTR_RESET }
  let evs0 : List Ev := [Ev.resetAttr, Ev.clearScreen, Ev.moveCursor 1 1]
  let vt := { vt with terminalFg := FG_DEFAULT, terminalBg := BG_DEFAULT
                      terminalAttr := ATTR_RESET
                      terminalCursorX := 0, terminalCursorY := 0
                      terminalStateKnown := false, forceFullRedraw := true }
  let r := clear true vt
  (r.1, evs0 ++ r.2)

/-- A paint step threads the instance state and the event trace. -/
abbrev PSt := VT × List Ev

/-- `qANSI_VT::_updateCellAppearance(index)`: emits a style command for
each of attribute, foreground and background that differs from the
tracked terminal state; `setTextAttribute` / `setTextColor` /
`setTextBackgroundColor` also overwrite the current drawing style. -/
def updAppear (cell : AnsiCell) (s : PSt) : PSt :=
  let s :=
    if cell.attributes = s.1.terminalAttr then s
    else ({ s.1 with currentAttr := cell.attributes, terminalAttr := cell.attributes },
          s.2 ++ [Ev.setAttr cell.attributes])
  let s :=
    if cell.fgColor = s.1.terminalFg then s
    else ({ s.1 with currentFg := cell.fgColor, terminalFg := cell.fgColor },
          s.2 ++ [Ev.setFg cell.fgColor])
  if cell.bgColor = s.1.terminalBg then s
  else ({ s.1 with currentBg := cell.bgColor, terminalBg := cell.bgColor },
        s.2 ++ [Ev.setBg cell.bgColor])

/-- Painting one cell inside `display()`: update its appearance, write
its character byte, bump the tracked cursor column (8-bit) and clear its
dirty flag. -/
def paintCell (x y : Nat) (s : PSt) : PSt :=
  let idx := getIndex s.1 x y
  let cell := s.1.buffer.getD idx dCell
  let s := updAppear cell s
  ({ s.1 with buffer := (s.1.buffer.set idx { cell with dirty := false })
              terminalCursorX := (s.1.terminalCursorX + 1) % 256 },
   s.2 ++ [Ev.glyph cell.character])

/-- Painting the `n` cells `x0 .. x0+n-1` of row `y`, left to right. -/
def paintRange (y x0 n : Nat) (s : PSt) : PSt :=
  (List.range' x0 n).foldl (fun s x => paintCell x y s) s

/-- `qANSI::setCursor(_posX, _posY + y - 1)` plus the tracked-state
assignments that start a full-row paint.  The row argument of the ANSI
command is the `uint8_t` conversion of the int expression
`_posY + y - 1`, written `(posY + y + 255) % 256`. -/
def rowStart (y : Nat) (s : PSt) : PSt :=
  let c := s.1.posX
  let r := (s.1.posY + y + 255) % 256
  ({ s.1 with terminalCursorX := c, terminalCursorY := r },
   s.2 ++ [Ev.moveCursor c r])

/-- `qANSI::setCursor(_posX + dirtyStart - 1, _posY + y - 1)` plus the
tracked-state assignments that start a sparse run paint. -/
def runStart (x0 y : Nat) (s : PSt) : PSt :=
  let c := (s.1.posX + x0 + 255) % 256
  let r := (s.1.posY + y + 255) % 256
  ({ s.1 with terminalCursorX := c, terminalCursorY := r },
   s.2 ++ [Ev.moveCursor c r])

/-- Does row `y` contain a dirty cell?  (The per-row flag computed by
the analysis pass of `display()`.) -/
def rowHasDirty (vt : VT) (y : Nat) : Bool :=
  (List.range' 1 vt.width).any (fun x => (cellAt vt x y).dirty)

/-- The analysis pass's `dirtyCount`: dirty cells, scanned by row. -/
def countDirty (vt : VT) : Nat :=
  ((List.range' 1 vt.height).map (fun y =>
    ((List.range' 1 vt.width).filter (fun x => (cellAt vt x y).dirty)).length)).sum

/-- The analysis pass's `dirtyRows`. -/
def dirtyRowsCount (vt : VT) : Nat :=
  ((List.range' 1 vt.height).filter (fun y => rowHasDirty vt y)).length

/-- The sparse-update scan loop over one interior row `y`
(`scanPos`/`dirtyStart` as in the source; `w` is `_width`).  Dirty flags
are read from the live, partially painted buffer, exactly as the C++
reads `_buffer`.  When a run ends (a clean cell, or `scanPos == _width`)
the physical cursor is positioned at the run start and the cells
`dirtyStart .. scanPos-1` are painted.  `fuel` bounds the iteration
count; called with `fuel = w` from `scanPos = 1` it performs exactly the
source's `while (scanPos <= _width)` iterations. -/
def sparseScan (w y : Nat) : Nat → Nat → Nat → PSt → PSt
  | 0, _, _, s => s
  | fuel + 1, scanPos, dirtyStart, s =>
    if w < scanPos then s else
    let ds := if dirtyStart = 0 ∧ (s.1.buffer.getD (getIndex s.1 scanPos y) dCell).dirty
              then scanPos else dirtyStart
    if 0 < ds ∧ (scanPos = w ∨ ¬(s.1.buffer.getD (getIndex s.1 scanPos y) dCell).dirty) then
      sparseScan w y fuel (scanPos + 1) 0 (paintRange y ds (scanPos - ds) (runStart ds y s))
    else
      sparseScan w y fuel (scanPos + 1) ds s

/-- The full-redraw strategy: every row repainted in full. -/
def fullRedrawPaint (h w : Nat) (s : PSt) : PSt :=
  (List.range' 1 h).foldl (fun s y => paintRange y 1 w (rowStart y s)) s

/-- The sparse-update strategy: skip clean rows (per the analysis
snapshot `rowDirty`), repaint border rows (first and last) in full, and
repaint interior rows run by run. -/
def sparsePaint (h w : Nat) (rowDirty : Nat → Bool) (s : PSt) : PSt :=
  (List.range' 1 h).foldl (fun s y =>
    if ¬rowDirty y then s
    else if y = 1 ∨ y = h then paintRange y 1 w (rowStart y s)
    else sparseScan w y w 1 0 s) s

/-- The row-based strategy: repaint each row flagged by the analysis
snapshot in full. -/
def rowBasedPaint (h w : Nat) (rowDirty : Nat → Bool) (s : PSt) : PSt :=
  (List.range' 1 h).foldl (fun s y =>
    if ¬rowDirty y then s
    else paintRange y 1 w (rowStart y s)) s

/-- `qANSI_VT::display()`.  Null buffer: nothing at all.  Otherwise:
hide the cursor if it is invisible; analyse dirtiness unless a full
redraw is forced; return after zero further I/O when nothing changed and
no redraw is forced; upgrade to a full redraw past the 70% dirty-cell
threshold; reset attributes (which also resets the current drawing
style) and zero the tracked style; paint under the selected strategy;
clear the force flag; finally park the physical cursor at the logical
cursor's screen position and show it, or hide it. -/
def display (vt : VT) : VT × List Ev :=
  if vt.buffer = [] then (vt, []) else
  let ev0 : List Ev := if vt.cursorVisible then [] else [Ev.hideCursor]
  let dc := if vt.forceFullRedraw then 0 else countDirty vt
  let dr := if vt.forceFullRedraw then 0 else dirtyRowsCount vt
  let hasChanges : Bool := if vt.forceFullRedraw then true else decide (0 < dc)
  let force : Bool :=
    if vt.forceFullRedraw then true
    else decide (7 * (vt.width * vt.height) < 10 * dc)
  if ¬hasChanges ∧ ¬force then (vt, ev0) else
  let s1 : PSt :=
    ({ vt with currentAttr := ATTR_RESET, currentFg := FG_DEFAULT, currentBg := BG_DEFAULT
               terminalAttr := ATTR_RESET, terminalFg := FG_DEFAULT, terminalBg := BG_DEFAULT },
     ev0 ++ [Ev.resetAttr])
  let s2 :=
    if force then fullRedrawPaint vt.height vt.width s1
    else if 10 * dr ≤ 3 * vt.height then
      sparsePaint vt.height vt.width (fun y => rowHasDirty vt y) s1
    else rowBasedPaint vt.height vt.width (fun y => rowHasDirty vt y) s1
  let vt2 := { s2.1 with forceFullRedraw := false }
  if vt.cursorVisible then
    (vt2, s2.2 ++ [Ev.moveCursor ((vt.posX + vt.cursorX + 255) % 256)
                     ((vt.posY + vt.cursorY + 255) % 256), Ev.showCursor])
  else (vt2, s2.2 ++ [Ev.hideCursor])

/-- A live (non-degraded) instance: positive dimensions and a buffer of
exactly `width * height` cells, as established by the constructor. -/
def ND (vt : VT) : Prop :=
  0 < vt.width ∧ 0 < vt.height ∧ vt.buffer.length = vt.width * vt.height

instance (vt : VT) : Decidable (ND vt) := by
  unfold ND; infer_instance

/-- Is an event a glyph byte? -/
def isGlyph : Ev → Bool
  | Ev.glyph _ => true
  | _ => false

/-- Is an event an absolute cursor-positioning command? -/
def isMove : Ev → Bool
  | Ev.moveCursor _ _ => true
  | _ => false

/-- The displayable content of a cell: everything except the dirty flag. -/
def contentOf (c : AnsiCell) : Nat × Nat × Nat × Nat :=
  (c.character, c.fgColor, c.bgColor, c.attributes)

/-- State `b` agrees with state `a` on everything `display()` may not
change: dimensions, region origin, logical cursor, policy flags, cursor
visibility, and the content (character and style, dirty flag aside) of
every buffer cell. -/
def KeepF (a b : VT) : Prop :=
  b.width = a.width ∧ b.height = a.height ∧ b.posX = a.posX ∧ b.posY = a.posY ∧
  b.cursorX = a.cursorX ∧ b.cursorY = a.cursorY ∧
  b.scrollEnabled = a.scrollEnabled ∧ b.lineWrappingEnabled = a.lineWrappingEnabled ∧
  b.cursorVisible = a.cursorVisible ∧
  b.buffer.length = a.buffer.length ∧
  ∀ i, contentOf (b.buffer.getD i dCell) = contentOf (a.buffer.getD i dCell)

/-- The cursor-bounds invariant of claim C10 (as amended): the column is
always in range, and the row leaves the grid only past the bottom edge
and only with scrolling disabled. -/
def CursorOK (u : VT) : Prop :=
  (1 ≤ u.cursorX ∧ u.cursorX ≤ u.width) ∧
  ((1 ≤ u.cursorY ∧ u.cursorY ≤ u.height) ∨
    (u.scrollEnabled = false ∧ u.height < u.cursorY))

theorem constrainN_le {amt low high : Nat} (h : low ≤ high) :
    low ≤ constrainN amt low high ∧ constrainN amt low high ≤ high := by
  unfold constrainN
  split
  · omega
  · split <;> omega

theorem constrainN_eq_self {amt low high : Nat} (h1 : low ≤ amt) (h2 : amt ≤ high) :
    constrainN amt low high = amt := by
  unfold constrainN
  split
  · omega
  · split <;> omega

theorem constrainN_eq_clamp {amt high : Nat} (h : 1 ≤ high) :
    constrainN amt 1 high = max 1 (min amt high) := by
  unfold constrainN
  split
  · omega
  · split <;> omega

theorem getD_eq_getElem? {α : Type} (l : List α) (i : Nat) (d : α) :
    l.getD i d = (l[i]?).getD d :=
  List.getD_eq_getElem?_getD l i d

theorem getD_set {α : Type} (l : List α) (i j : Nat) (a d : α) :
    (l.set i a).getD j d =
      if i = j ∧ i < l.length then a else l.getD j d := by
  by_cases hij : i = j
  · subst hij
    by_cases hlen : i < l.length
    · simp [getD_eq_getElem?, List.getElem?_set, hlen]
    · have h1 : l.length ≤ i := Nat.le_of_not_lt hlen
      simp [getD_eq_getElem?, List.getElem?_set, hlen,
        List.getElem?_eq_none h1]
  · simp [getD_eq_getElem?, List.getElem?_set, hij]

theorem getD_range_map {α : Type} (f : Nat → α) (n i : Nat) (d : α) :
    ((List.range n).map f).getD i d = if i < n then f i else d := by
  rw [getD_eq_getElem?, List.getElem?_map]
  split
  · rename_i h
    rw [List.getElem?_range h]
    simp
  · rename_i h
    rw [List.getElem?_eq_none (by simpa using Nat.le_of_not_lt h)]
    simp

/-- On a live instance every (clamped) index lands inside the buffer. -/
theorem getIndex_lt_length {vt : VT} (hnd : ND vt) (col row : Nat) :
    getIndex vt col row < vt.buffer.length := by
  obtain ⟨hw, hh, hlen⟩ := hnd
  show (constrainN row 1 vt.height - 1) * vt.width + (constrainN col 1 vt.width - 1) <
    vt.buffer.length
  obtain ⟨hc1, hc2⟩ := @constrainN_le col 1 vt.width hw
  obtain ⟨hr1, hr2⟩ := @constrainN_le row 1 vt.height hh
  rw [hlen]
  have e1 : (constrainN row 1 vt.height - 1) * vt.width ≤ (vt.height - 1) * vt.width :=
    Nat.mul_le_mul_right _ (by omega)
  have e2 : (vt.height - 1) * vt.width = vt.height * vt.width - 1 * vt.width :=
    Nat.sub_mul vt.height 1 vt.width
  have e3 : vt.width ≤ vt.height * vt.width := Nat.le_mul_of_pos_left vt.width hh
  have e4 : vt.width * vt.height = vt.height * vt.width := Nat.mul_comm vt.width vt.height
  omega

/-- `getIndex` at in-range coordinates, with the clamps removed. -/
theorem getIndex_in_range {vt : VT} {col row : Nat}
    (h1 : 1 ≤ col) (h2 : col ≤ vt.width) (h3 : 1 ≤ row) (h4 : row ≤ vt.height) :
    getIndex vt col row = (row - 1) * vt.width + (col - 1) := by
  unfold getIndex
  rw [constrainN_eq_self h1 h2, constrainN_eq_self h3 h4]

theorem mk_degraded {w h : Nat} (px py : Nat) (hwh : w = 0 ∨ h = 0) :
    (QAnsi.mk w h px py).width = 0 ∧ (QAnsi.mk w h px py).height = 0 ∧
      (QAnsi.mk w h px py).buffer = [] := by
  unfold QAnsi.mk
  rw [if_neg (by rcases hwh with h | h <;> simp [h])]
  exact ⟨rfl, rfl, rfl⟩

theorem write_nil {vt : VT} (c : Nat) (hb : vt.buffer = []) : write c vt = (vt, 0) := by
  unfold write
  rw [if_pos (Or.inl hb)]

theorem display_nil {vt : VT} (hb : vt.buffer = []) : display vt = (vt, []) := by
  unfold display
  rw [if_pos hb]

theorem setCursor_nil {vt : VT} (col row : Nat) (hb : vt.buffer = []) :
    setCursor col row vt = vt := by
  unfold setCursor
  rw [if_pos hb]

theorem clear_nil {vt : VT} (b : Bool) (hb : vt.buffer = []) : clear b vt = (vt, []) := by
  unfold clear
  rw [if_pos hb]

theorem scrollUp_nil {vt : VT} (n : Nat) (hb : vt.buffer = []) : scrollUp n vt = (vt, []) := by
  unfold scrollUp
  rw [if_pos (Or.inl hb)]

theorem begin_nil {vt : VT} (hb : vt.buffer = []) : begin vt = (vt, []) := by
  unfold begin
  rw [if_pos hb]

theorem ND.buffer_ne_nil {vt : VT} (hnd : ND vt) : vt.buffer ≠ [] := by
  obtain ⟨hw, hh, hlen⟩ := hnd
  intro h
  rw [h] at hlen
  simp at hlen
  rcases hlen with h | h <;> omega

set_option maxRecDepth 10000

theorem getD_mem_of_lt {α : Type} {l : List α} {i : Nat} (d : α) (h : i < l.length) :
    l.getD i d ∈ l := by
  rw [getD_eq_getElem?, List.getElem?_eq_getElem h]
  exact List.getElem_mem h

/-- With every cell clean, the analysis pass counts zero dirty cells. -/
theorem countDirty_eq_zero {vt : VT} (hnd : ND vt)
    (hclean : ∀ cl ∈ vt.buffer, cl.dirty = false) : countDirty vt = 0 := by
  unfold countDirty
  rw [List.sum_eq_zero_iff]
  intro a ha
  rw [List.mem_map] at ha
  obtain ⟨y, _, rfl⟩ := ha
  rw [List.length_eq_zero, List.filter_eq_nil_iff]
  intro x _
  have hmem : cellAt vt x y ∈ vt.buffer :=
    getD_mem_of_lt dCell (getIndex_lt_length hnd x y)
  simp [hclean _ hmem]

/-- All projections of `scrollUp` other than the buffer and the
force-full-redraw flag are unchanged, and it emits nothing. -/
theorem scrollUp_fields (n : Nat) (vt : VT) :
    (scrollUp n vt).1.width = vt.width ∧ (scrollUp n vt).1.height = vt.height ∧
    (scrollUp n vt).1.posX = vt.posX ∧ (scrollUp n vt).1.posY = vt.posY ∧
    (scrollUp n vt).1.cursorX = vt.cursorX ∧ (scrollUp n vt).1.cursorY = vt.cursorY ∧
    (scrollUp n vt).1.scrollEnabled = vt.scrollEnabled ∧
    (scrollUp n vt).1.lineWrappingEnabled = vt.lineWrappingEnabled ∧
    (scrollUp n vt).1.currentFg = vt.currentFg ∧
    (scrollUp n vt).1.currentBg = vt.currentBg ∧
    (scrollUp n vt).1.currentAttr = vt.currentAttr ∧
    (scrollUp n vt).1.cursorVisible = vt.cursorVisible ∧
    (scrollUp n vt).2 = [] := by
  unfold scrollUp
  split
  · exact ⟨rfl, rfl, rfl, rfl, rfl, rfl, rfl, rfl, rfl, rfl, rfl, rfl, rfl⟩
  · exact ⟨rfl, rfl, rfl, rfl, rfl, rfl, rfl, rfl, rfl, rfl, rfl, rfl, rfl⟩

/-- C2 as amended: with no cell dirty and no forced redraw, `display()`
changes nothing and emits zero bytes when the cursor is visible; when
the cursor is hidden it emits exactly the hide-cursor command (sent
before the early return). -/
theorem C2_clean_display_quiet (vt : VT) (hnd : ND vt)
    (hclean : ∀ cl ∈ vt.buffer, cl.dirty = false)
    (hforce : vt.forceFullRedraw = false) :
    (display vt).1 = vt ∧
    (display vt).2 = (if vt.cursorVisible then [] else [Ev.hideCursor]) := by
  have h0 : countDirty vt = 0 := countDirty_eq_zero hnd hclean
  unfold display
  rw [if_neg (ND.buffer_ne_nil hnd)]
  simp only [hforce, if_false, h0, Bool.false_eq_true]
  norm_num

/-- Witness for C2 (amended) on a freshly flushed 1×1 instance with a
visible cursor: the second `display` emits nothing. -/
theorem C2_clean_display_quiet_witness :
    (ND (display (QAnsi.mk 1 1 1 1)).1 ∧
     (∀ cl ∈ (display (QAnsi.mk 1 1 1 1)).1.buffer, cl.dirty = false) ∧
     (display (QAnsi.mk 1 1 1 1)).1.forceFullRedraw = false) ∧
    ((display (display (QAnsi.mk 1 1 1 1)).1).1 = (display (QAnsi.mk 1 1 1 1)).1 ∧
     (display (display (QAnsi.mk 1 1 1 1)).1).2 =
       (if (display (QAnsi.mk 1 1 1 1)).1.cursorVisible then [] else [Ev.hideCursor])) :=
  ⟨⟨by decide, by decide, by decide⟩,
   C2_clean_display_quiet (display (QAnsi.mk 1 1 1 1)).1 (by decide) (by decide) (by decide)⟩

/-- C5 as amended: `_getIndex` uses exactly the clamped coordinate
`(clamp(col,1,width), clamp(row,1,height))`; `getCharAt` returns the
(clamped-index) cell content for in-range coordinates but returns a
blank (32), NOT the clamped cell's content, for out-of-range ones. -/
theorem C5_clamped_access (vt : VT) (col row : Nat) (hnd : ND vt) :
    getIndex vt col row =
      (max 1 (min row vt.height) - 1) * vt.width + (max 1 (min col vt.width) - 1) ∧
    (1 ≤ col → col ≤ vt.width → 1 ≤ row → row ≤ vt.height →
      getCharAt vt col row = (cellAt vt col row).character) ∧
    (vt.width < col ∨ col = 0 ∨ vt.height < row ∨ row = 0 →
      getCharAt vt col row = 32) := by
  obtain ⟨hw, hh, hlen⟩ := hnd
  refine ⟨?_, ?_, ?_⟩
  · show (constrainN row 1 vt.height - 1) * vt.width + (constrainN col 1 vt.width - 1) = _
    rw [constrainN_eq_clamp hw, constrainN_eq_clamp hh]
  · intro h1 h2 h3 h4
    unfold getCharAt
    rw [if_neg]
    push_neg
    refine ⟨ND.buffer_ne_nil ⟨hw, hh, hlen⟩, by omega, by omega, by omega, by omega⟩
  · intro hout
    unfold getCharAt
    rw [if_pos]
    rcases hout with h | h | h | h
    · exact Or.inr (Or.inr (Or.inl h))
    · exact Or.inr (Or.inl (by omega))
    · exact Or.inr (Or.inr (Or.inr (Or.inr h)))
    · exact Or.inr (Or.inr (Or.inr (Or.inl (by omega))))

/-- Witness for C5 (amended) at out-of-range column 3 of a 2×1 region. -/
theorem C5_clamped_access_witness :
    ND (writeList [65, 66] (setLineWrapping false (QAnsi.mk 2 1 1 1))) ∧
    (let vt := writeList [65, 66] (setLineWrapping false (QAnsi.mk 2 1 1 1))
     getIndex vt 3 1 =
       (max 1 (min 1 vt.height) - 1) * vt.width + (max 1 (min 3 vt.width) - 1) ∧
     (1 ≤ 3 → 3 ≤ vt.width → 1 ≤ 1 → 1 ≤ vt.height →
       getCharAt vt 3 1 = (cellAt vt 3 1).character) ∧
     (vt.width < 3 ∨ 3 = 0 ∨ vt.height < 1 ∨ 1 = 0 → getCharAt vt 3 1 = 32)) :=
  ⟨by decide,
   C5_clamped_access (writeList [65, 66] (setLineWrapping false (QAnsi.mk 2 1 1 1)))
     3 1 (by decide)⟩

/-- C6 as amended: a single `write` of a printable byte while the
cursor row is past the last row (scrolling disabled) leaves the whole
buffer unchanged yet returns 1; with line wrapping also disabled the
row does not move, so the suppression persists indefinitely.  (With
wrapping enabled the 8-bit row counter eventually wraps back into
range without any reposition — see the counterexample.) -/
theorem C6_out_of_range_write (vt : VT) (c : Nat) (hnd : ND vt)
    (hscroll : vt.scrollEnabled = false) (hrow : vt.height < vt.cursorY)
    (hc : 32 ≤ c) :
    (write c vt).1.buffer = vt.buffer ∧ (write c vt).2 = 1 ∧
    (vt.lineWrappingEnabled = false → (write c vt).1.cursorY = vt.cursorY) := by
  obtain ⟨hw, hh, hlen⟩ := hnd
  have hne : ¬(vt.buffer = [] ∨ vt.width = 0 ∨ vt.height = 0) := by
    push_neg
    exact ⟨ND.buffer_ne_nil ⟨hw, hh, hlen⟩, by omega, by omega⟩
  unfold write
  rw [if_neg hne, if_neg (by omega : ¬c = 10), if_neg (by omega : ¬c = 13),
    if_neg (by omega : ¬c = 8), if_pos hc, if_neg (by omega :
      ¬(1 ≤ vt.cursorX ∧ vt.cursorX ≤ vt.width ∧ 1 ≤ vt.cursorY ∧ vt.cursorY ≤ vt.height))]
  dsimp only
  split_ifs with h1 h2 h3
  · exact absurd h3.2 (by simp [hscroll])
  · refine ⟨rfl, rfl, fun hwf => ?_⟩
    rw [h2] at hwf
    exact absurd hwf (by simp)
  · exact ⟨rfl, rfl, fun _ => rfl⟩
  · exact ⟨rfl, rfl, fun _ => rfl⟩

/-- Witness for C6 (amended) on a 2×1 wrap-off scroll-off instance with
the cursor forced past the last row. -/
theorem C6_out_of_range_write_witness :
    (let vt := { setLineWrapping false (setScrolling false (QAnsi.mk 2 1 1 1)) with
                   cursorY := 2 }
     (ND vt ∧ vt.scrollEnabled = false ∧ vt.height < vt.cursorY ∧ 32 ≤ 65) ∧
     ((write 65 vt).1.buffer = vt.buffer ∧ (write 65 vt).2 = 1 ∧
      (vt.lineWrappingEnabled = false → (write 65 vt).1.cursorY = vt.cursorY))) :=
  ⟨⟨by decide, by decide, by decide, by decide⟩,
   C6_out_of_range_write _ 65 (by decide) (by decide) (by decide) (by decide)⟩

theorem rowcol_div {w a b : Nat} (hw : 0 < w) (hb : b < w) : (a * w + b) / w = a := by
  rw [Nat.add_comm, Nat.add_mul_div_right b a hw, Nat.div_eq_of_lt hb]
  omega

/-- The buffer `scrollUp` builds, described cell by cell. -/
theorem scrollUp_buffer {vt : VT} {n : Nat} (hb : vt.buffer ≠ []) (hn : n ≠ 0) :
    (scrollUp n vt).1.buffer = (List.range vt.buffer.length).map (fun i =>
      if i / vt.width + 1 ≤ vt.height - min n vt.height then
        let src := vt.buffer.getD (i + min n vt.height * vt.width) dCell
        ⟨src.character, src.fgColor, src.bgColor, src.attributes, true⟩
      else blankCell vt) := by
  unfold scrollUp
  rw [if_neg (by push_neg; exact ⟨hb, hn⟩)]

theorem scrollUp_force {vt : VT} {n : Nat} (hb : vt.buffer ≠ []) (hn : n ≠ 0) :
    (scrollUp n vt).1.forceFullRedraw = true := by
  unfold scrollUp
  rw [if_neg (by push_neg; exact ⟨hb, hn⟩)]

/-- C3: `scrollUp(n)` (the `uint8_t` argument ranges over `1 ≤ n ≤ 255`)
caps `n` at the height `H` as `n' = min(n, H)`; for rows `n'+1 ≤ k ≤ H`
the content formerly at `(x, k)` is afterwards at `(x, k - n')` and is
marked dirty; the bottom `n'` rows become blank with the current
foreground/background/attribute style (dirty); the force-full-redraw
flag is set; and no sink output is produced. -/
theorem C3_scrollUp_moves_rows (vt : VT) (n x k : Nat) (hnd : ND vt)
    (hn1 : 1 ≤ n) (hn255 : n ≤ 255) (hx1 : 1 ≤ x) (hx2 : x ≤ vt.width) :
    (min n vt.height + 1 ≤ k → k ≤ vt.height →
      contentOf (cellAt (scrollUp n vt).1 x (k - min n vt.height)) =
        contentOf (cellAt vt x k) ∧
      (cellAt (scrollUp n vt).1 x (k - min n vt.height)).dirty = true) ∧
    (vt.height - min n vt.height + 1 ≤ k → k ≤ vt.height →
      cellAt (scrollUp n vt).1 x k = blankCell vt) ∧
    (scrollUp n vt).1.forceFullRedraw = true ∧
    (scrollUp n vt).2 = [] := by
  obtain ⟨hw, hh, hlen⟩ := hnd
  have hb := ND.buffer_ne_nil ⟨hw, hh, hlen⟩
  have hn0 : n ≠ 0 := by omega
  have hbuf := scrollUp_buffer hb hn0
  have hwidth : (scrollUp n vt).1.width = vt.width := (scrollUp_fields n vt).1
  have hheight : (scrollUp n vt).1.height = vt.height := (scrollUp_fields n vt).2.1
  have hL1 : 1 ≤ min n vt.height := by omega
  have hL2 : min n vt.height ≤ vt.height := by omega
  refine ⟨?_, ?_, scrollUp_force hb hn0,
    (scrollUp_fields n vt).2.2.2.2.2.2.2.2.2.2.2.2⟩
  · intro hk1 hk2
    have hj1 : 1 ≤ k - min n vt.height := by omega
    have hj2 : k - min n vt.height ≤ vt.height := by omega
    have hidx : getIndex (scrollUp n vt).1 x (k - min n vt.height) =
        (k - min n vt.height - 1) * vt.width + (x - 1) := by
      unfold getIndex
      rw [hwidth, hheight, constrainN_eq_self hx1 hx2, constrainN_eq_self hj1 hj2]
    have hlt : (k - min n vt.height - 1) * vt.width + (x - 1) < vt.buffer.length := by
      have e1 : (k - min n vt.height - 1) * vt.width ≤ (vt.height - 1) * vt.width :=
        Nat.mul_le_mul_right _ (by omega)
      have e2 : (vt.height - 1) * vt.width = vt.height * vt.width - 1 * vt.width :=
        Nat.sub_mul vt.height 1 vt.width
      have e3 : vt.width ≤ vt.height * vt.width := Nat.le_mul_of_pos_left vt.width hh
      have e4 : vt.width * vt.height = vt.height * vt.width := Nat.mul_comm vt.width vt.height
      omega
    have hdiv : ((k - min n vt.height - 1) * vt.width + (x - 1)) / vt.width =
        k - min n vt.height - 1 := rowcol_div hw (by omega)
    have hsrc : (k - min n vt.height - 1) * vt.width + (x - 1) +
        min n vt.height * vt.width = getIndex vt x k := by
      rw [getIndex_in_range hx1 hx2 (by omega : 1 ≤ k) hk2]
      have e5 : (k - min n vt.height - 1) * vt.width + min n vt.height * vt.width =
          (k - 1) * vt.width := by
        rw [← Nat.add_mul]
        congr 1
        omega
      omega
    unfold cellAt
    rw [hidx, hbuf, getD_range_map, if_pos hlt]
    dsimp only
    rw [if_pos (by rw [hdiv]; omega), hsrc]
    exact ⟨rfl, rfl⟩
  · intro hk1 hk2
    have hidx : getIndex (scrollUp n vt).1 x k = (k - 1) * vt.width + (x - 1) := by
      unfold getIndex
      rw [hwidth, hheight, constrainN_eq_self hx1 hx2,
        constrainN_eq_self (by omega : 1 ≤ k) hk2]
    have hlt : (k - 1) * vt.width + (x - 1) < vt.buffer.length := by
      have e1 : (k - 1) * vt.width ≤ (vt.height - 1) * vt.width :=
        Nat.mul_le_mul_right _ (by omega)
      have e2 : (vt.height - 1) * vt.width = vt.height * vt.width - 1 * vt.width :=
        Nat.sub_mul vt.height 1 vt.width
      have e3 : vt.width ≤ vt.height * vt.width := Nat.le_mul_of_pos_left vt.width hh
      have e4 : vt.width * vt.height = vt.height * vt.width := Nat.mul_comm vt.width vt.height
      omega
    have hdiv : ((k - 1) * vt.width + (x - 1)) / vt.width = k - 1 :=
      rowcol_div hw (by omega)
    unfold cellAt
    rw [hidx, hbuf, getD_range_map, if_pos hlt]
    dsimp only
    rw [if_neg (by rw [hdiv]; omega)]

/-- Witness for C3 on a 2×3 region holding "AB" in row 2 (placed there
by a wrap), scrolled up by one line. -/
theorem C3_scrollUp_moves_rows_witness :
    (ND (writeList [65, 66] (setCursor 1 2 (QAnsi.mk 2 3 1 1))) ∧ 1 ≤ 1 ∧ 1 ≤ 255 ∧
      1 ≤ 1 ∧ 1 ≤ (writeList [65, 66] (setCursor 1 2 (QAnsi.mk 2 3 1 1))).width) ∧
    (let vt := writeList [65, 66] (setCursor 1 2 (QAnsi.mk 2 3 1 1))
     (min 1 vt.height + 1 ≤ 2 → 2 ≤ vt.height →
       contentOf (cellAt (scrollUp 1 vt).1 1 (2 - min 1 vt.height)) =
         contentOf (cellAt vt 1 2) ∧
       (cellAt (scrollUp 1 vt).1 1 (2 - min 1 vt.height)).dirty = true) ∧
     (vt.height - min 1 vt.height + 1 ≤ 2 → 2 ≤ vt.height →
       cellAt (scrollUp 1 vt).1 1 2 = blankCell vt) ∧
     (scrollUp 1 vt).1.forceFullRedraw = true ∧
     (scrollUp 1 vt).2 = []) :=
  ⟨⟨by decide, by decide, by decide, by decide, by decide⟩,
   C3_scrollUp_moves_rows (writeList [65, 66] (setCursor 1 2 (QAnsi.mk 2 3 1 1)))
     1 1 2 (by decide) (by decide) (by decide) (by decide) (by decide)⟩

/-- One printable write with wrapping disabled: the column advances and
clamps at the right edge (`min` form, valid while `width ≤ 254` keeps
the 8-bit increment from wrapping), the row stays put, and the grid
dimensions are untouched. -/
theorem write_printable_nowrap_step (vt : VT) (c : Nat) (hnd : ND vt)
    (hwrap : vt.lineWrappingEnabled = false) (hw254 : vt.width ≤ 254)
    (hc : 32 ≤ c) (hx : vt.cursorX ≤ vt.width) :
    (write c vt).1.cursorX = min (vt.cursorX + 1) vt.width ∧
    (write c vt).1.cursorY = vt.cursorY ∧
    (write c vt).1.width = vt.width ∧
    (write c vt).1.height = vt.height ∧
    (write c vt).1.lineWrappingEnabled = false ∧
    (write c vt).1.buffer.length = vt.buffer.length ∧
    (write c vt).2 = 1 := by
  obtain ⟨hw, hh, hlen⟩ := hnd
  have hne : ¬(vt.buffer = [] ∨ vt.width = 0 ∨ vt.height = 0) := by
    push_neg
    exact ⟨ND.buffer_ne_nil ⟨hw, hh, hlen⟩, by omega, by omega⟩
  have hmod : (vt.cursorX + 1) % 256 = vt.cursorX + 1 := Nat.mod_eq_of_lt (by omega)
  unfold write
  rw [if_neg hne, if_neg (by omega : ¬c = 10), if_neg (by omega : ¬c = 13),
    if_neg (by omega : ¬c = 8), if_pos hc]
  dsimp only
  split_ifs with h1 h2 h3 h4 h5 h6 <;>
    first
      | (exact absurd ‹vt.lineWrappingEnabled = true› (by simp [hwrap]))
      | (refine ⟨?_, rfl, rfl, rfl, hwrap, by simp, rfl⟩
         simp only [hmod] at *
         omega)

/-- Writing a printable byte list with wrapping disabled: the column
ends at `min (start + length) width`; the row and dimensions are
untouched. -/
theorem writeList_printable_nowrap (cs : List Nat) : ∀ (vt : VT), ND vt →
    vt.lineWrappingEnabled = false → vt.width ≤ 254 → (∀ a ∈ cs, 32 ≤ a) →
    vt.cursorX ≤ vt.width →
    (writeList cs vt).cursorX = min (vt.cursorX + cs.length) vt.width ∧
    (writeList cs vt).cursorY = vt.cursorY ∧
    (writeList cs vt).width = vt.width ∧
    (writeList cs vt).height = vt.height ∧
    (writeList cs vt).lineWrappingEnabled = false ∧
    (writeList cs vt).buffer.length = vt.buffer.length := by
  induction cs with
  | nil =>
    intro vt hnd hwrap hw254 hcs hx
    refine ⟨?_, rfl, rfl, rfl, hwrap, rfl⟩
    show vt.cursorX = min (vt.cursorX + 0) vt.width
    omega
  | cons a t ih =>
    intro vt hnd hwrap hw254 hcs hx
    obtain ⟨s1, s2, s3, s4, s5, s6, s7⟩ :=
      write_printable_nowrap_step vt a hnd hwrap hw254 (hcs a (by simp)) hx
    have hnd1 : ND (write a vt).1 := by
      refine ⟨by rw [s3]; exact hnd.1, by rw [s4]; exact hnd.2.1, ?_⟩
      rw [s6, s3, s4]
      exact hnd.2.2
    obtain ⟨t1, t2, t3, t4, t5, t6⟩ :=
      ih (write a vt).1 hnd1 s5 (by rw [s3]; exact hw254)
        (fun b hb => hcs b (by simp [hb])) (by rw [s1, s3]; omega)
    have hfold : writeList (a :: t) vt = writeList t (write a vt).1 := rfl
    rw [hfold]
    refine ⟨?_, by rw [t2, s2], by rw [t3, s3], by rw [t4, s4], t5, by rw [t6, s6]⟩
    rw [t1, s1, s3]
    simp only [List.length_cons]
    omega

/-- C4 as amended: with wrapping disabled (and `width ≤ 254`, before
the 8-bit column counter itself wraps), writing exactly `width`
printable glyphs from column 1 pins the cursor at column = width;
writing one further printable glyph still returns 1 and keeps the
cursor pinned, but the glyph is NOT dropped: it is stored into the cell
at (width, row), overwriting it (the only change to the grid). -/
theorem C4_nowrap_overflow (vt : VT) (cs : List Nat) (c : Nat) (hnd : ND vt)
    (hwrap : vt.lineWrappingEnabled = false) (hw254 : vt.width ≤ 254)
    (hx1 : vt.cursorX = 1) (hlen : cs.length = vt.width)
    (hcs : ∀ a ∈ cs, 32 ≤ a) (hc : 32 ≤ c)
    (hy1 : 1 ≤ vt.cursorY) (hy2 : vt.cursorY ≤ vt.height) :
    (writeList cs vt).cursorX = vt.width ∧
    (writeList cs vt).cursorY = vt.cursorY ∧
    (write c (writeList cs vt)).2 = 1 ∧
    (write c (writeList cs vt)).1.cursorX = vt.width ∧
    (write c (writeList cs vt)).1.buffer =
      (writeList cs vt).buffer.set
        (getIndex (writeList cs vt) vt.width vt.cursorY)
        ⟨c, (writeList cs vt).currentFg, (writeList cs vt).currentBg,
          (writeList cs vt).currentAttr, true⟩ := by
  obtain ⟨hw, hh, hlen0⟩ := hnd
  obtain ⟨t1, t2, t3, t4, t5, t6⟩ :=
    writeList_printable_nowrap cs vt ⟨hw, hh, hlen0⟩ hwrap hw254 hcs (by omega)
  have hx_w : (writeList cs vt).cursorX = vt.width := by
    rw [t1, hx1, hlen]
    omega
  have hbufpos : 0 < (writeList cs vt).buffer.length := by
    rw [t6, hlen0]
    exact Nat.mul_pos hw hh
  have hne : ¬((writeList cs vt).buffer = [] ∨ (writeList cs vt).width = 0 ∨
      (writeList cs vt).height = 0) := by
    push_neg
    exact ⟨List.ne_nil_of_length_pos hbufpos, by omega, by omega⟩
  have hin : 1 ≤ (writeList cs vt).cursorX ∧
      (writeList cs vt).cursorX ≤ (writeList cs vt).width ∧
      1 ≤ (writeList cs vt).cursorY ∧
      (writeList cs vt).cursorY ≤ (writeList cs vt).height := by
    rw [hx_w, t2, t3, t4]
    exact ⟨by omega, by omega, hy1, hy2⟩
  have hmod : ((writeList cs vt).cursorX + 1) % 256 = vt.width + 1 := by
    rw [hx_w]
    exact Nat.mod_eq_of_lt (by omega)
  refine ⟨hx_w, t2, ?_, ?_, ?_⟩
  · unfold write
    rw [if_neg hne, if_neg (by omega : ¬c = 10), if_neg (by omega : ¬c = 13),
      if_neg (by omega : ¬c = 8), if_pos hc, if_pos hin]
  · unfold write
    rw [if_neg hne, if_neg (by omega : ¬c = 10), if_neg (by omega : ¬c = 13),
      if_neg (by omega : ¬c = 8), if_pos hc, if_pos hin]
    dsimp only
    rw [hmod, if_pos (by rw [t3]; omega : (writeList cs vt).width < vt.width + 1),
      if_neg (by rw [t5]; simp : ¬(writeList cs vt).lineWrappingEnabled = true)]
    exact t3
  · unfold write
    rw [if_neg hne, if_neg (by omega : ¬c = 10), if_neg (by omega : ¬c = 13),
      if_neg (by omega : ¬c = 8), if_pos hc, if_pos hin]
    dsimp only
    rw [hmod, if_pos (by rw [t3]; omega : (writeList cs vt).width < vt.width + 1),
      if_neg (by rw [t5]; simp : ¬(writeList cs vt).lineWrappingEnabled = true),
      hx_w, t2]

/-- Witness for C4 (amended) on a 2×1 wrap-off region, glyphs "AB" and
overflow glyph 'C'. -/
theorem C4_nowrap_overflow_witness :
    (let vt := setLineWrapping false (QAnsi.mk 2 1 1 1)
     (ND vt ∧ vt.lineWrappingEnabled = false ∧ vt.width ≤ 254 ∧ vt.cursorX = 1 ∧
      ([65, 66] : List Nat).length = vt.width ∧ (∀ a ∈ ([65, 66] : List Nat), 32 ≤ a) ∧
      32 ≤ 67 ∧ 1 ≤ vt.cursorY ∧ vt.cursorY ≤ vt.height) ∧
     ((writeList [65, 66] vt).cursorX = vt.width ∧
      (writeList [65, 66] vt).cursorY = vt.cursorY ∧
      (write 67 (writeList [65, 66] vt)).2 = 1 ∧
      (write 67 (writeList [65, 66] vt)).1.cursorX = vt.width ∧
      (write 67 (writeList [65, 66] vt)).1.buffer =
        (writeList [65, 66] vt).buffer.set
          (getIndex (writeList [65, 66] vt) vt.width vt.cursorY)
          ⟨67, (writeList [65, 66] vt).currentFg, (writeList [65, 66] vt).currentBg,
            (writeList [65, 66] vt).currentAttr, true⟩)) :=
  ⟨⟨by decide, by decide, by decide, by decide, by decide, by decide, by decide,
    by decide, by decide⟩,
   C4_nowrap_overflow (setLineWrapping false (QAnsi.mk 2 1 1 1)) [65, 66] 67
     (by decide) (by decide) (by decide) (by decide) (by decide) (by decide)
     (by decide) (by decide) (by decide)⟩

theorem keep_refl (a : VT) : KeepF a a :=
  ⟨rfl, rfl, rfl, rfl, rfl, rfl, rfl, rfl, rfl, rfl, fun _ => rfl⟩

theorem keep_trans {a b c : VT} (h1 : KeepF a b) (h2 : KeepF b c) : KeepF a c := by
  obtain ⟨p1, p2, p3, p4, p5, p6, p7, p8, p9, p10, p11⟩ := h1
  obtain ⟨q1, q2, q3, q4, q5, q6, q7, q8, q9, q10, q11⟩ := h2
  exact ⟨q1.trans p1, q2.trans p2, q3.trans p3, q4.trans p4, q5.trans p5,
    q6.trans p6, q7.trans p7, q8.trans p8, q9.trans p9, q10.trans p10,
    fun i => (q11 i).trans (p11 i)⟩

theorem updAppear_buffer (cell : AnsiCell) (s : PSt) :
    (updAppear cell s).1.buffer = s.1.buffer := by
  unfold updAppear
  dsimp only
  split_ifs <;> rfl

theorem keep_updAppear (cell : AnsiCell) (s : PSt) : KeepF s.1 (updAppear cell s).1 := by
  unfold KeepF updAppear
  dsimp only
  split_ifs <;>
    exact ⟨rfl, rfl, rfl, rfl, rfl, rfl, rfl, rfl, rfl, rfl, fun _ => rfl⟩

theorem keep_paintCell (x y : Nat) (s : PSt) : KeepF s.1 (paintCell x y s).1 := by
  have hb := updAppear_buffer (s.1.buffer.getD (getIndex s.1 x y) dCell) s
  obtain ⟨k1, k2, k3, k4, k5, k6, k7, k8, k9, k10, k11⟩ :=
    keep_updAppear (s.1.buffer.getD (getIndex s.1 x y) dCell) s
  unfold KeepF
  simp only [paintCell]
  refine ⟨k1, k2, k3, k4, k5, k6, k7, k8, k9, ?_, ?_⟩
  · rw [List.length_set, hb]
  · intro i
    rw [hb, getD_set]
    split
    · rename_i hcond
      rw [← hcond.1]
      rfl
    · rfl

theorem keep_foldl {g : Nat → PSt → PSt} (hg : ∀ x s, KeepF s.1 (g x s).1)
    (l : List Nat) : ∀ s : PSt, KeepF s.1 (l.foldl (fun s x => g x s) s).1 := by
  induction l with
  | nil => intro s; exact keep_refl _
  | cons a t ih =>
    intro s
    rw [List.foldl_cons]
    exact keep_trans (hg a s) (ih (g a s))

theorem keep_paintRange (y x0 n : Nat) (s : PSt) : KeepF s.1 (paintRange y x0 n s).1 := by
  unfold paintRange
  exact keep_foldl (fun x s => keep_paintCell x y s) _ s

theorem keep_rowStart (y : Nat) (s : PSt) : KeepF s.1 (rowStart y s).1 := by
  unfold KeepF rowStart
  exact ⟨rfl, rfl, rfl, rfl, rfl, rfl, rfl, rfl, rfl, rfl, fun _ => rfl⟩

theorem keep_runStart (x0 y : Nat) (s : PSt) : KeepF s.1 (runStart x0 y s).1 := by
  unfold KeepF runStart
  exact ⟨rfl, rfl, rfl, rfl, rfl, rfl, rfl, rfl, rfl, rfl, fun _ => rfl⟩

theorem keep_sparseScan (w y : Nat) :
    ∀ (fuel scanPos ds : Nat) (s : PSt), KeepF s.1 (sparseScan w y fuel scanPos ds s).1 := by
  intro fuel
  induction fuel with
  | zero => intro _ _ s; exact keep_refl _
  | succ f ih =>
    intro scanPos ds s
    simp only [sparseScan]
    split_ifs <;>
      first
        | exact keep_refl _
        | exact ih _ _ _
        | exact keep_trans
            (keep_trans (keep_runStart _ _ _) (keep_paintRange _ _ _ _)) (ih _ _ _)

theorem keep_fullRedrawPaint (h w : Nat) (s : PSt) : KeepF s.1 (fullRedrawPaint h w s).1 := by
  unfold fullRedrawPaint
  exact keep_foldl
    (fun y s => keep_trans (keep_rowStart y s) (keep_paintRange y 1 w (rowStart y s))) _ s

theorem keep_sparsePaint (h w : Nat) (rowDirty : Nat → Bool) (s : PSt) :
    KeepF s.1 (sparsePaint h w rowDirty s).1 := by
  unfold sparsePaint
  refine keep_foldl (fun y s => ?_) _ s
  split_ifs <;>
    first
      | exact keep_refl _
      | exact keep_trans (keep_rowStart _ _) (keep_paintRange _ _ _ _)
      | exact keep_sparseScan w y w 1 0 s

theorem keep_rowBasedPaint (h w : Nat) (rowDirty : Nat → Bool) (s : PSt) :
    KeepF s.1 (rowBasedPaint h w rowDirty s).1 := by
  unfold rowBasedPaint
  refine keep_foldl (fun y s => ?_) _ s
  split_ifs <;>
    first
      | exact keep_refl _
      | exact keep_trans (keep_rowStart _ _) (keep_paintRange _ _ _ _)

theorem keep_reset_style (vt : VT) (a f g a2 f2 g2 : Nat) :
    KeepF vt { vt with currentAttr := a, currentFg := f, currentBg := g,
                       terminalAttr := a2, terminalFg := f2, terminalBg := g2 } :=
  ⟨rfl, rfl, rfl, rfl, rfl, rfl, rfl, rfl, rfl, rfl, fun _ => rfl⟩

theorem keep_set_force (b : VT) (v : Bool) : KeepF b { b with forceFullRedraw := v } :=
  ⟨rfl, rfl, rfl, rfl, rfl, rfl, rfl, rfl, rfl, rfl, fun _ => rfl⟩

/-- `display()` preserves everything in `KeepF`, whichever strategy
(or early return) it takes. -/
theorem keep_display (vt : VT) : KeepF vt (display vt).1 := by
  unfold display
  split
  · exact keep_refl vt
  · dsimp only
    split_ifs <;>
      first
        | exact keep_refl _
        | exact keep_trans (keep_trans (keep_reset_style _ _ _ _ _ _ _)
            (keep_fullRedrawPaint _ _ _)) (keep_set_force _ _)
        | exact keep_trans (keep_trans (keep_reset_style _ _ _ _ _ _ _)
            (keep_sparsePaint _ _ _ _)) (keep_set_force _ _)
        | exact keep_trans (keep_trans (keep_reset_style _ _ _ _ _ _ _)
            (keep_rowBasedPaint _ _ _ _)) (keep_set_force _ _)

/-- C9 as amended: `display()` never changes dimensions, region origin,
logical cursor, scrolling/wrapping policy, cursor visibility, or any
cell's character/foreground/background/attributes; beyond dirty flags,
the force-full-redraw flag and the shadow terminal state it also
resets/overwrites the current drawing style (see the counterexample),
which the original claim omitted. -/
theorem C9_display_preserves (vt : VT) : KeepF vt (display vt).1 :=
  keep_display vt

theorem scrollUp_width (n : Nat) (u : VT) : (scrollUp n u).1.width = u.width :=
  (scrollUp_fields n u).1

theorem scrollUp_height (n : Nat) (u : VT) : (scrollUp n u).1.height = u.height :=
  (scrollUp_fields n u).2.1

theorem scrollUp_cursorX (n : Nat) (u : VT) : (scrollUp n u).1.cursorX = u.cursorX :=
  (scrollUp_fields n u).2.2.2.2.1

theorem scrollUp_cursorY (n : Nat) (u : VT) : (scrollUp n u).1.cursorY = u.cursorY :=
  (scrollUp_fields n u).2.2.2.2.2.1

theorem scrollUp_scrollEnabled (n : Nat) (u : VT) :
    (scrollUp n u).1.scrollEnabled = u.scrollEnabled :=
  (scrollUp_fields n u).2.2.2.2.2.2.1

theorem write_cursor_ok (vt : VT) (c : Nat) (hnd : ND vt) (hw254 : vt.width ≤ 254)
    (hh254 : vt.height ≤ 254) (hx1 : 1 ≤ vt.cursorX) (hx2 : vt.cursorX ≤ vt.width)
    (hy1 : 1 ≤ vt.cursorY) (hy2 : vt.cursorY ≤ vt.height) :
    CursorOK (write c vt).1 := by
  obtain ⟨hw, hh, hlen⟩ := hnd
  have hne : ¬(vt.buffer = [] ∨ vt.width = 0 ∨ vt.height = 0) := by
    push_neg
    exact ⟨ND.buffer_ne_nil ⟨hw, hh, hlen⟩, by first | omega | (dsimp only; omega), by first | omega | (dsimp only; omega)⟩
  unfold write CursorOK
  rw [if_neg hne]
  by_cases h10 : c = 10
  · rw [if_pos h10]
    dsimp only
    split_ifs with hcond
    · refine ⟨⟨?_, ?_⟩, Or.inl ⟨?_, ?_⟩⟩ <;>
        simp only [scrollUp_cursorX, scrollUp_cursorY, scrollUp_width, scrollUp_height] <;>
        omega
    · rcases Bool.eq_false_or_eq_true vt.scrollEnabled with hsc | hsc
      · have hr : ¬(vt.height < (vt.cursorY + 1) % 256) := fun hl => hcond ⟨hl, hsc⟩
        exact ⟨⟨by first | omega | (dsimp only; omega), by first | omega | (dsimp only; omega)⟩, Or.inl ⟨by first | omega | (dsimp only; omega), by first | omega | (dsimp only; omega)⟩⟩
      · by_cases hr : vt.height < (vt.cursorY + 1) % 256
        · exact ⟨⟨by first | omega | (dsimp only; omega), by first | omega | (dsimp only; omega)⟩, Or.inr ⟨hsc, hr⟩⟩
        · exact ⟨⟨by first | omega | (dsimp only; omega), by first | omega | (dsimp only; omega)⟩, Or.inl ⟨by first | omega | (dsimp only; omega), by first | omega | (dsimp only; omega)⟩⟩
  · rw [if_neg h10]
    by_cases h13 : c = 13
    · rw [if_pos h13]
      exact ⟨⟨by first | omega | (dsimp only; omega), by first | omega | (dsimp only; omega)⟩, Or.inl ⟨by first | omega | (dsimp only; omega), by first | omega | (dsimp only; omega)⟩⟩
    · rw [if_neg h13]
      by_cases h8 : c = 8
      · rw [if_pos h8]
        dsimp only
        split_ifs with hgt
        · exact ⟨⟨by first | omega | (dsimp only; omega), by first | omega | (dsimp only; omega)⟩, Or.inl ⟨by first | omega | (dsimp only; omega), by first | omega | (dsimp only; omega)⟩⟩
        · exact ⟨⟨by first | omega | (dsimp only; omega), by first | omega | (dsimp only; omega)⟩, Or.inl ⟨by first | omega | (dsimp only; omega), by first | omega | (dsimp only; omega)⟩⟩
      · rw [if_neg h8]
        by_cases h32 : 32 ≤ c
        · rw [if_pos h32]
          dsimp only
          rw [if_pos (⟨hx1, hx2, hy1, hy2⟩ :
            1 ≤ vt.cursorX ∧ vt.cursorX ≤ vt.width ∧ 1 ≤ vt.cursorY ∧
              vt.cursorY ≤ vt.height)]
          dsimp only
          split_ifs with hov hwrap hscr
          · refine ⟨⟨?_, ?_⟩, Or.inl ⟨?_, ?_⟩⟩ <;>
              simp only [scrollUp_cursorX, scrollUp_cursorY, scrollUp_width,
                scrollUp_height] <;>
              omega
          · rcases Bool.eq_false_or_eq_true vt.scrollEnabled with hsc | hsc
            · have hr : ¬(vt.height < (vt.cursorY + 1) % 256) := fun hl => hscr ⟨hl, hsc⟩
              exact ⟨⟨by first | omega | (dsimp only; omega), by first | omega | (dsimp only; omega)⟩, Or.inl ⟨by first | omega | (dsimp only; omega), by first | omega | (dsimp only; omega)⟩⟩
            · by_cases hr : vt.height < (vt.cursorY + 1) % 256
              · exact ⟨⟨by first | omega | (dsimp only; omega), by first | omega | (dsimp only; omega)⟩, Or.inr ⟨hsc, hr⟩⟩
              · exact ⟨⟨by first | omega | (dsimp only; omega), by first | omega | (dsimp only; omega)⟩, Or.inl ⟨by first | omega | (dsimp only; omega), by first | omega | (dsimp only; omega)⟩⟩
          · exact ⟨⟨by first | omega | (dsimp only; omega), by first | omega | (dsimp only; omega)⟩, Or.inl ⟨by first | omega | (dsimp only; omega), by first | omega | (dsimp only; omega)⟩⟩
          · exact ⟨⟨by first | omega | (dsimp only; omega), by first | omega | (dsimp only; omega)⟩, Or.inl ⟨by first | omega | (dsimp only; omega), by first | omega | (dsimp only; omega)⟩⟩
        · rw [if_neg h32]
          exact ⟨⟨hx1, hx2⟩, Or.inl ⟨hy1, hy2⟩⟩

theorem setCursor_cursor_ok (col row : Nat) (vt : VT) (hnd : ND vt) :
    CursorOK (setCursor col row vt) := by
  obtain ⟨hw, hh, hlen⟩ := hnd
  unfold setCursor CursorOK
  rw [if_neg (ND.buffer_ne_nil ⟨hw, hh, hlen⟩)]
  dsimp only
  split_ifs <;>
    (try simp only [scrollUp_cursorX, scrollUp_cursorY, scrollUp_width, scrollUp_height,
       scrollUp_scrollEnabled] at *) <;>
    exact ⟨constrainN_le hw, Or.inl (constrainN_le hh)⟩

theorem clear_cursor_ok (b : Bool) (vt : VT) (hnd : ND vt) : CursorOK (clear b vt).1 := by
  obtain ⟨hw, hh, hlen⟩ := hnd
  unfold clear
  rw [if_neg (ND.buffer_ne_nil ⟨hw, hh, hlen⟩)]
  dsimp only
  have hnd2 : ND { vt with buffer := vt.buffer.map (fun _ => blankCell vt) } :=
    ⟨hw, hh, by simp [hlen]⟩
  have hok := setCursor_cursor_ok 1 1 _ hnd2
  split_ifs
  · exact hok
  · exact hok

theorem scrollUp_cursor_ok (n : Nat) (vt : VT) (hx1 : 1 ≤ vt.cursorX)
    (hx2 : vt.cursorX ≤ vt.width) (hy1 : 1 ≤ vt.cursorY) (hy2 : vt.cursorY ≤ vt.height) :
    CursorOK (scrollUp n vt).1 := by
  have e1 := scrollUp_cursorX n vt
  have e2 := scrollUp_cursorY n vt
  have e3 := scrollUp_width n vt
  have e4 := scrollUp_height n vt
  exact ⟨⟨by omega, by omega⟩, Or.inl ⟨by omega, by omega⟩⟩

theorem display_cursor_ok (vt : VT) (hx1 : 1 ≤ vt.cursorX) (hx2 : vt.cursorX ≤ vt.width)
    (hy1 : 1 ≤ vt.cursorY) (hy2 : vt.cursorY ≤ vt.height) : CursorOK (display vt).1 := by
  obtain ⟨p1, p2, p3, p4, p5, p6, p7, p8, p9, p10, p11⟩ := keep_display vt
  exact ⟨⟨by omega, by omega⟩, Or.inl ⟨by omega, by omega⟩⟩

/-- C10 as amended: on a non-degraded instance with `width ≤ 254` and
`height ≤ 254` (so no 8-bit cursor-counter wraparound; at 255 the
column/row can escape, see the counterexample) and the cursor in range,
after any single public operation — `write` of any byte, `setCursor`,
`clear`, `scrollUp` or `display` — the cursor column is in `1..width`,
and the row either stays in `1..height` or exceeds the bottom edge with
scrolling disabled. -/
theorem C10_cursor_invariant (vt : VT) (c col row n : Nat) (b : Bool) (hnd : ND vt)
    (hw254 : vt.width ≤ 254) (hh254 : vt.height ≤ 254)
    (hx1 : 1 ≤ vt.cursorX) (hx2 : vt.cursorX ≤ vt.width)
    (hy1 : 1 ≤ vt.cursorY) (hy2 : vt.cursorY ≤ vt.height) :
    CursorOK (write c vt).1 ∧ CursorOK (setCursor col row vt) ∧
    CursorOK (clear b vt).1 ∧ CursorOK (scrollUp n vt).1 ∧
    CursorOK (display vt).1 :=
  ⟨write_cursor_ok vt c hnd hw254 hh254 hx1 hx2 hy1 hy2,
   setCursor_cursor_ok col row vt hnd,
   clear_cursor_ok b vt hnd,
   scrollUp_cursor_ok n vt hx1 hx2 hy1 hy2,
   display_cursor_ok vt hx1 hx2 hy1 hy2⟩

/-- Witness for C10 (amended) on a 2×3 instance, writing a newline. -/
theorem C10_cursor_invariant_witness :
    (ND (QAnsi.mk 2 3 1 1) ∧ (QAnsi.mk 2 3 1 1).width ≤ 254 ∧
     (QAnsi.mk 2 3 1 1).height ≤ 254 ∧ 1 ≤ (QAnsi.mk 2 3 1 1).cursorX ∧
     (QAnsi.mk 2 3 1 1).cursorX ≤ (QAnsi.mk 2 3 1 1).width ∧
     1 ≤ (QAnsi.mk 2 3 1 1).cursorY ∧
     (QAnsi.mk 2 3 1 1).cursorY ≤ (QAnsi.mk 2 3 1 1).height) ∧
    (CursorOK (write 10 (QAnsi.mk 2 3 1 1)).1 ∧
     CursorOK (setCursor 7 9 (QAnsi.mk 2 3 1 1)) ∧
     CursorOK (clear true (QAnsi.mk 2 3 1 1)).1 ∧
     CursorOK (scrollUp 1 (QAnsi.mk 2 3 1 1)).1 ∧
     CursorOK (display (QAnsi.mk 2 3 1 1)).1) :=
  ⟨⟨by decide, by decide, by decide, by decide, by decide, by decide, by decide⟩,
   C10_cursor_invariant (QAnsi.mk 2 3 1 1) 10 7 9 1 true (by decide) (by decide)
     (by decide) (by decide) (by decide) (by decide) (by decide)⟩

/-- C8: constructing with `width = 0` (likewise `height = 0`; an
allocation failure produces the same degraded field values) yields a
degraded instance: `width()` is 0, `write` returns 0 without touching
anything, `display` emits nothing, and `setCursor`, `clear`, `scrollUp`
and `begin` are exact no-ops. -/
theorem C8_degraded_no_op (w h px py c col row n : Nat) (b : Bool)
    (hwh : w = 0 ∨ h = 0) :
    (QAnsi.mk w h px py).width = 0 ∧
    write c (QAnsi.mk w h px py) = (QAnsi.mk w h px py, 0) ∧
    display (QAnsi.mk w h px py) = (QAnsi.mk w h px py, []) ∧
    setCursor col row (QAnsi.mk w h px py) = QAnsi.mk w h px py ∧
    clear b (QAnsi.mk w h px py) = (QAnsi.mk w h px py, []) ∧
    scrollUp n (QAnsi.mk w h px py) = (QAnsi.mk w h px py, []) ∧
    begin (QAnsi.mk w h px py) = (QAnsi.mk w h px py, []) := by
  obtain ⟨hw0, hh0, hb0⟩ := mk_degraded px py hwh
  exact ⟨hw0, write_nil c hb0, display_nil hb0, setCursor_nil col row hb0,
    clear_nil b hb0, scrollUp_nil n hb0, begin_nil hb0⟩

/-- Witness for C8 at the spec's own example, `width = 0`. -/
theorem C8_degraded_no_op_witness :
    ((0 : Nat) = 0 ∨ (3 : Nat) = 0) ∧
    ((QAnsi.mk 0 3 1 1).width = 0 ∧
     write 65 (QAnsi.mk 0 3 1 1) = (QAnsi.mk 0 3 1 1, 0) ∧
     display (QAnsi.mk 0 3 1 1) = (QAnsi.mk 0 3 1 1, []) ∧
     setCursor 2 2 (QAnsi.mk 0 3 1 1) = QAnsi.mk 0 3 1 1 ∧
     clear true (QAnsi.mk 0 3 1 1) = (QAnsi.mk 0 3 1 1, []) ∧
     scrollUp 1 (QAnsi.mk 0 3 1 1) = (QAnsi.mk 0 3 1 1, []) ∧
     begin (QAnsi.mk 0 3 1 1) = (QAnsi.mk 0 3 1 1, [])) :=
  ⟨Or.inl rfl, C8_degraded_no_op 0 3 1 1 65 2 2 1 true (Or.inl rfl)⟩

/-- C1: the code, evaluated at the failing input.  On a 2×4 region
(interior rows exist and one dirty row puts `display` on the sparse
path), after a flushing `display`, a glyph written at the last column of
interior row 2 is dirty; the next `display` returns with that cell STILL
dirty — the sparse run scanner paints `dirtyStart .. scanPos-1`, which
is empty when the run starts at `scanPos == width` — contradicting the
claim that every cell is clean after `display()`. -/
theorem C1_sparse_leaves_dirty_cell :
    (let w1 := (display (QAnsi.mk 2 4 1 1)).1
     let w2 := (write 65 (setCursor 2 2 w1)).1
     (cellAt w2 2 2).dirty = true ∧
     (cellAt (display w2).1 2 2).dirty = true ∧
     (display w2).1.forceFullRedraw = false) := by
  decide

/-- Counterexample to C2 as stated: with the cursor set invisible and
nothing dirty, `display()` still emits a hide-cursor command (sent
before the early return), so the output is not zero bytes for every
cursor-visibility setting. -/
theorem C2_counterexample :
    (let vt := { (display (QAnsi.mk 1 1 1 1)).1 with cursorVisible := false }
     (∀ cl ∈ vt.buffer, cl.dirty = false) ∧ vt.forceFullRedraw = false ∧
     (display vt).2 = [Ev.hideCursor]) := by
  decide

/-- Counterexample to C4 as stated: on a 2×1 region with wrapping
disabled, after writing two glyphs the cursor is pinned at column 2; a
third glyph is NOT dropped — it is stored into cell (2,1), overwriting
it, so the grid contents change (`write` still returns 1). -/
theorem C4_counterexample :
    (let vt2 := writeList [65, 66] (setLineWrapping false (QAnsi.mk 2 1 1 1))
     vt2.cursorX = 2 ∧ (cellAt vt2 2 1).character = 66 ∧
     (write 67 vt2).2 = 1 ∧ (cellAt (write 67 vt2).1 2 1).character = 67 ∧
     (write 67 vt2).1.buffer ≠ vt2.buffer) := by
  decide

/-- Counterexample to C5 as stated: reading at the out-of-range
coordinate (3,1) of a 2×1 region returns a space (32), not the content
of the clamped in-range cell (2,1), which holds 66. -/
theorem C5_counterexample :
    (let vt := writeList [65, 66] (setLineWrapping false (QAnsi.mk 2 1 1 1))
     getCharAt vt 3 1 = 32 ∧ (cellAt vt 3 1).character = 66) := by
  decide

/-- Counterexample to C6 as stated: scrolling disabled on a 1×1 region,
wrap enabled.  After one glyph the cursor row (2) is past the last row
and the cell holds 65.  256 further glyph writes — with no explicit
reposition — wrap the 8-bit row counter 255 → 0 → 1, the cursor
re-enters range, and the final write overwrites the cell with 66. -/
theorem C6_counterexample :
    (let sA := (write 65 (setScrolling false (QAnsi.mk 1 1 1 1))).1
     sA.scrollEnabled = false ∧ sA.height < sA.cursorY ∧
     (cellAt sA 1 1).character = 65 ∧
     (cellAt (writeList (List.replicate 256 66) sA) 1 1).character = 66) := by
  decide

/-- Counterexample to C7 as stated: in the claim's scenario the
`display()` after writing "HELLO" issues ten glyph writes (the whole
row) and two cursor positionings, not five and one. -/
theorem C7_counterexample :
    (let vt2 := writeList [72, 69, 76, 76, 79] (display (QAnsi.mk 10 3 1 1)).1
     ((display vt2).2.filter isGlyph).length = 10 ∧
     ((display vt2).2.filter isMove).length = 2) := by
  decide

/-- C7 as amended: on a 10×3 region at origin (1,1), after a first
`display` has flushed the construction state, writing "HELLO" leaves the
cursor at (6,1) and cells (1,1)..(5,1) holding the letters; the next
`display` takes the row-based path (1 dirty row > 30% of 3) and emits a
style reset, one positioning to the origin, the full ten-glyph row
(letters then blanks, no per-cell style commands since the style is the
unchanged default), a final positioning to the logical cursor's screen
position (6,1), and a show-cursor command. -/
theorem C7_hello_display :
    (let vt2 := writeList [72, 69, 76, 76, 79] (display (QAnsi.mk 10 3 1 1)).1
     vt2.cursorX = 6 ∧ vt2.cursorY = 1 ∧
     (cellAt vt2 1 1).character = 72 ∧ (cellAt vt2 2 1).character = 69 ∧
     (cellAt vt2 3 1).character = 76 ∧ (cellAt vt2 4 1).character = 76 ∧
     (cellAt vt2 5 1).character = 79 ∧
     (display vt2).2 = [Ev.resetAttr, Ev.moveCursor 1 1,
        Ev.glyph 72, Ev.glyph 69, Ev.glyph 76, Ev.glyph 76, Ev.glyph 79,
        Ev.glyph 32, Ev.glyph 32, Ev.glyph 32, Ev.glyph 32, Ev.glyph 32,
        Ev.moveCursor 6 1, Ev.showCursor]) := by
  decide

/-- Counterexample to C9 as stated: `display()` also mutates the
current drawing style (the `qANSI` base-class `_currentFg` /
`_currentBg` / `_currentAttr` used for subsequent buffer writes), which
is none of dirty flags, force-full-redraw, or shadow terminal state:
here `resetAttributes()` inside `display` overwrites a red (31)
current foreground with the default (39). -/
theorem C9_counterexample :
    (let vt := { QAnsi.mk 1 1 1 1 with currentFg := 31 }
     vt.currentFg = 31 ∧ (display vt).1.currentFg = 39) := by
  decide

/-- Counterexample to C10 as stated: on a non-degraded 255×1 region
(the widest a `uint8_t` allows) with the cursor at column 255, one
printable write makes `_cursorX++` wrap 255 → 0; 0 > 255 is false, so
the wrap/clamp branch is skipped and the cursor column is left at 0,
outside 1..width. -/
theorem C10_counterexample :
    ((setCursor 255 1 (QAnsi.mk 255 1 1 1)).cursorX = 255 ∧
     (write 65 (setCursor 255 1 (QAnsi.mk 255 1 1 1))).1.cursorX = 0) := by
  decide

end QAnsi
